import Mathlib

/-!
Shallow embedding of the azle name-service canister (`src/index.ts`) and
verification of its specification.

Modelling decisions, each matching the JavaScript/azle semantics of the source:

* A `Principal` is represented by its textual encoding (`Principal.toString()`),
  which on the Internet Computer is in bijection with the principal itself, so
  the comparison `ic.caller().toString() !== owner.toString()` in the source is
  string disequality of the two representatives.
* A `StableBTreeMap` is an associative store, modelled extensionally as a
  function `String → Option value`; `insert` overwrites, `remove` returns the
  previous binding (an azle `Opt`), `containsKey` tests presence.
* The ambient caller identity `ic.caller()` is passed as an explicit `caller`
  argument to every update method; it is constant for the duration of a call.
* The azle `Result.Ok`/`Result.Err` value is the inductive `Result` below.  In
  JavaScript any object is truthy, so `!isNameValid(name)` in `registerName`
  is `false` whatever `isNameValid` returns: this is captured by `jsTruthy`.
* `String.prototype.trim` is `jsTrim` (drop whitespace from both ends);
  `!s` on a string tests emptiness (`jsFalsy`); `JSON.stringify` on the
  record and option values appearing in messages is `jsonOfName`/`jsonOfOpt`.
* `console.log` has no effect on state or result and is not represented.
-/

namespace AzleNS

/-- JavaScript `String.prototype.trim`: remove whitespace from both ends. -/
def jsTrim (s : String) : String :=
  ⟨List.rdropWhile Char.isWhitespace (List.dropWhile Char.isWhitespace s.data)⟩

/-- JavaScript falsiness of a string: `!s` is true exactly for `""`. -/
def jsFalsy (s : String) : Bool := s == ""

/-- A principal, represented by its textual encoding (`toString` form). -/
abbrev Principal := String

/-- The azle `Result` sum type: `Ok` or `Err`. -/
inductive Result (α β : Type) where
  | Ok : α → Result α β
  | Err : β → Result α β
deriving Repr, DecidableEq

/-- Whether a `Result` is `Ok`. -/
def Result.isOk {α β : Type} : Result α β → Bool
  | .Ok _ => true
  | .Err _ => false

/-- Whether a `Result` is `Err`. -/
def Result.isErr {α β : Type} : Result α β → Bool
  | .Ok _ => false
  | .Err _ => true

/-- JavaScript truthiness of an azle `Result` value: a `Result` is an object,
and every object is truthy, so this is constantly `true`.  Consequently
`!isNameValid(name)` in the source is always `false`. -/
def jsTruthy {α β : Type} (_ : Result α β) : Bool := true

/-- The `Name` record: btc address, eth address, twitter username. -/
structure Name where
  btcAddress : String
  ethAddress : String
  twitterUsername : String
deriving Repr, DecidableEq

/-- A `StableBTreeMap<string, α>`, modelled extensionally. -/
structure Store (α : Type) where
  get : String → Option α

/-- `StableBTreeMap.insert`: overwrites any previous binding. -/
def Store.insert {α : Type} (m : Store α) (k : String) (v : α) : Store α :=
  ⟨fun x => if x = k then some v else m.get x⟩

/-- `StableBTreeMap.remove`: returns the previous binding (azle `Opt`) and the
store without the key. -/
def Store.remove {α : Type} (m : Store α) (k : String) : Option α × Store α :=
  (m.get k, ⟨fun x => if x = k then none else m.get x⟩)

/-- `StableBTreeMap.containsKey`. -/
def Store.containsKey {α : Type} (m : Store α) (k : String) : Bool :=
  (m.get k).isSome

/-- The canister state: the `register` map (name → owner principal) and the
`records` map (name → name data). -/
structure RegState where
  register : Store Principal
  records : Store Name

/-- The state of a freshly deployed canister: both maps empty. -/
def initState : RegState := ⟨⟨fun _ => none⟩, ⟨fun _ => none⟩⟩

/-- One character of the class `[A-Za-z0-9]`. -/
def isAlnum (c : Char) : Bool :=
  ('A' ≤ c && c ≤ 'Z') || ('a' ≤ c && c ≤ 'z') || ('0' ≤ c && c ≤ '9')

/-- `validNameRegex.test(str)` for `validNameRegex = /^[A-Za-z0-9]+$/`. -/
def validNameRegexTest (str : String) : Bool :=
  !str.data.isEmpty && str.data.all isAlnum

/-- `isNameValid` from the source: note that it returns a `Result`, not a
boolean. -/
def isNameValid (str : String) : Result String String :=
  if validNameRegexTest str then
    .Ok str
  else
    .Err "INVALID_NAME_FORMAT: Name can only contain letters and numbers from the English alphabet"

/-- One hexadecimal digit (lower case). -/
def hexDigit (n : Nat) : Char :=
  if n < 10 then Char.ofNat (48 + n) else Char.ofNat (87 + n)

/-- JSON escaping of one character, as performed by `JSON.stringify`. -/
def jsonEscapeChar (c : Char) : String :=
  if c = '"' then "\\\""
  else if c = '\\' then "\\\\"
  else if c = '\n' then "\\n"
  else if c = '\t' then "\\t"
  else if c = '\r' then "\\r"
  else if c = '\x08' then "\\b"
  else if c = '\x0c' then "\\f"
  else if c.toNat < 32 then
    "\\u00" ++ String.singleton (hexDigit (c.toNat / 16)) ++ String.singleton (hexDigit (c.toNat % 16))
  else String.singleton c

/-- A JSON string literal for `s`. -/
def jsonStr (s : String) : String :=
  "\"" ++ String.join (s.data.map jsonEscapeChar) ++ "\""

/-- `JSON.stringify` of a `Name` record. -/
def jsonOfName (d : Name) : String :=
  "\x7b\"btcAddress\":" ++ jsonStr d.btcAddress ++
    ",\"ethAddress\":" ++ jsonStr d.ethAddress ++
    ",\"twitterUsername\":" ++ jsonStr d.twitterUsername ++ "\x7d"

/-- `JSON.stringify` of an azle `Opt<Name>` object (`{Some: …}` / `{None: null}`). -/
def jsonOfOpt : Option Name → String
  | some d => "\x7b\"Some\":" ++ jsonOfName d ++ "\x7d"
  | none => "\x7b\"None\":null\x7d"

/-- `registerName` from the source.  The trimmed name is validated (the format
check can never fire, because `isNameValid` returns a truthy object), the
length is checked, and an unclaimed name is bound to the caller. -/
def registerName (caller : Principal) (_name : String) (s : RegState) :
    Result String String × RegState :=
  let name := jsTrim _name
  if !(jsTruthy (isNameValid name)) then
    (.Err " INVALID_NAME_FORMAT : Name can only contain letters and numbers from the English alphabet", s)
  else if name.length < 2 || name.length > 16 then
    (.Err " INVALID_NAME_LENGTH : Name must be between 2 and 16 characters long", s)
  else
    match s.register.get name with
    | some _ => (.Err (name ++ " is already taken. Please use another name"), s)
    | none =>
        (.Ok (name ++ " now maps to " ++ caller),
          { s with register := s.register.insert name caller })

/-- `setNameData` from the source: owner-only, one-time, fields must be
non-empty after trimming (no upper length bound is checked). -/
def setNameData (caller : Principal) (name _btcAddress _ethAddress _twitterUsername : String)
    (s : RegState) : Result String String × RegState :=
  let btcAddress := jsTrim _btcAddress
  let ethAddress := jsTrim _ethAddress
  let twitterUsername := jsTrim _twitterUsername
  match s.register.get name with
  | some owner =>
      if caller ≠ owner then
        (.Err "Only name owner can set name data", s)
      else if s.records.containsKey name then
        (.Err (name ++ " already has data associated with it"), s)
      else if btcAddress.length == 0 then
        (.Err "Invalid Bitcoin address", s)
      else if ethAddress.length == 0 then
        (.Err "Invalid Ethereum address", s)
      else if twitterUsername.length == 0 then
        (.Err "Invalid Twitter username", s)
      else
        let nameData : Name := ⟨btcAddress, ethAddress, twitterUsername⟩
        (.Ok (name ++ " now maps to " ++ jsonOfName nameData),
          { s with records := s.records.insert name nameData })
  | none => (.Err (name ++ " has not been claimed yet"), s)

/-- `updateNameData` from the source: preliminary non-blank validation of all
four arguments, then owner-only overwrite of the data record (again with no
upper length bound on the fields). -/
def updateNameData (caller : Principal) (name _btcAddress _ethAddress _twitterUsername : String)
    (s : RegState) : Result String String × RegState :=
  if jsFalsy name || jsFalsy (jsTrim name) then
    (.Err "Invalid name", s)
  else if jsFalsy _btcAddress || jsFalsy (jsTrim _btcAddress) then
    (.Err "Invalid Bitcoin address", s)
  else if jsFalsy _ethAddress || jsFalsy (jsTrim _ethAddress) then
    (.Err "Invalid Ethereum address", s)
  else if jsFalsy _twitterUsername || jsFalsy (jsTrim _twitterUsername) then
    (.Err "Invalid Twitter username", s)
  else
    let btcAddress := jsTrim _btcAddress
    let ethAddress := jsTrim _ethAddress
    let twitterUsername := jsTrim _twitterUsername
    match s.register.get name with
    | some val =>
        if caller ≠ val then
          (.Err "Only name owner can update name data", s)
        else if btcAddress.length == 0 then
          (.Err "Invalid Bitcoin address", s)
        else if ethAddress.length == 0 then
          (.Err "Invalid Ethereum address", s)
        else if twitterUsername.length == 0 then
          (.Err "Invalid Twitter username", s)
        else
          let nameData : Name := ⟨btcAddress, ethAddress, twitterUsername⟩
          let prevData := s.records.get name
          (.Ok (name ++ " data has now been updated from " ++
              (match prevData with
               | some d => jsonOfName d
               | none => "\x7b\x7d") ++ " to " ++ jsonOfName nameData),
            { s with records := s.records.insert name nameData })
    | none => (.Err (name ++ " has not been claimed yet"), s)

/-- `clearName` from the source: owner-only removal of the name and any
attached data (the `console.log` branch has no observable effect). -/
def clearName (caller : Principal) (name : String) (s : RegState) :
    Result String String × RegState :=
  match s.register.get name with
  | some nameOwner =>
      if caller ≠ nameOwner then
        (.Err "Only name owner can clear name. Aborting...", s)
      else
        let register1 := (s.register.remove name).2
        let removed := s.records.remove name
        let prevData := removed.1
        (.Ok ("\x27" ++ name ++ "\x27 with data: " ++ jsonOfOpt prevData ++ " has been cleared from storage"),
          { register := register1, records := removed.2 })
  | none => (.Err "Cannot clear name that has not been claimed", s)

/-- `isNameAvailable` from the source. -/
def isNameAvailable (name : String) (s : RegState) : Bool :=
  match s.register.get name with
  | some _ => false
  | none => true

/-- `getNameData` from the source (the `None` handler interpolates the azle
`null` into its message). -/
def getNameData (name : String) (s : RegState) : Result Name String :=
  match s.records.get name with
  | some nameData => .Ok nameData
  | none => .Err ("Error getting name data for " ++ name ++ ": null")

/-- `viewNameData` from the source. -/
def viewNameData (name : String) (s : RegState) : Result Name String :=
  if isNameAvailable name s then
    .Err (name ++ " has not been claimed yet")
  else if !s.records.containsKey name then
    .Err (name ++ " has no data associated with it")
  else getNameData name s

/-- `viewRegisteredName` from the source: returns the display string of the owner. -/
def viewRegisteredName (name : String) (s : RegState) : Result String String :=
  match s.register.get name with
  | some val => .Ok val
  | none => .Err ("The name " ++ name ++ " has not been registered yet")

/-- One state-mutating call to the canister (queries do not change state). -/
inductive Op where
  | register (caller : Principal) (name : String)
  | set (caller : Principal) (name btc eth tw : String)
  | update (caller : Principal) (name btc eth tw : String)
  | clear (caller : Principal) (name : String)

/-- The state transition of one call. -/
def execOp (s : RegState) : Op → RegState
  | .register c n => (registerName c n s).2
  | .set c n b e t => (setNameData c n b e t s).2
  | .update c n b e t => (updateNameData c n b e t s).2
  | .clear c n => (clearName c n s).2

/-- The state after a sequence of calls against a fresh canister. -/
def execOps (ops : List Op) : RegState :=
  ops.foldl execOp initState

/-- Keys that the service can ever put into the `register` map: fixed by
trimming and of length 2–16. -/
def WFKey (k : String) : Prop :=
  jsTrim k = k ∧ 2 ≤ k.length ∧ k.length ≤ 16

/-- The state invariant maintained by the service layer: every key of the
`records` map is a key of the `register` map, and every `register` key is
well-formed. -/
def Inv (s : RegState) : Prop :=
  (∀ k, (s.records.get k).isSome = true → (s.register.get k).isSome = true) ∧
  (∀ k, (s.register.get k).isSome = true → WFKey k)

/-- A list whose head fails `p` (because appending something to it yields a
list fixed by `dropWhile p`) is itself fixed by `dropWhile p`. -/
theorem dropWhile_eq_self_of_append {α : Type} {p : α → Bool} {t r m : List α}
    (hm : List.dropWhile p m = m) (h : t ++ r = m) : List.dropWhile p t = t := by
  cases t with
  | nil => simp
  | cons a t' =>
    have ha : p a = false := by
      by_contra hpa
      rw [Bool.not_eq_false] at hpa
      subst h
      rw [List.cons_append, List.dropWhile_cons_of_pos hpa] at hm
      have hle := (List.dropWhile_sublist (l := t' ++ r) p).length_le
      rw [hm] at hle
      simp at hle
    simp [List.dropWhile_cons, ha]

/-- Trimming is idempotent. -/
theorem jsTrim_idem (s : String) : jsTrim (jsTrim s) = jsTrim s := by
  obtain ⟨r, hr⟩ :=
    List.rdropWhile_prefix Char.isWhitespace (List.dropWhile Char.isWhitespace s.data)
  have h2 := dropWhile_eq_self_of_append
    (List.dropWhile_idempotent Char.isWhitespace s.data) hr
  unfold jsTrim
  congr 1
  show List.rdropWhile _ (List.dropWhile _
      (List.rdropWhile _ (List.dropWhile _ s.data))) = _
  rw [h2, List.rdropWhile_idempotent]

/-- Lookup after `Store.insert`. -/
theorem get_insert {α : Type} (m : Store α) (k x : String) (v : α) :
    (m.insert k v).get x = if x = k then some v else m.get x := rfl

/-- Lookup after `Store.remove`. -/
theorem get_remove {α : Type} (m : Store α) (k x : String) :
    ((m.remove k).2).get x = if x = k then none else m.get x := rfl

/-- The fresh canister satisfies the invariant. -/
theorem inv_init : Inv initState := by
  constructor <;> intro k hk <;> simp [initState] at hk

/-- `registerName` preserves the invariant. -/
theorem inv_registerName {s : RegState} (h : Inv s) (c n : String) :
    Inv (registerName c n s).2 := by
  simp only [registerName, jsTruthy, Bool.not_true, Bool.false_eq_true, if_false]
  split
  · exact h
  · rename_i hlen
    split
    · exact h
    · refine ⟨fun k hk => ?_, fun k hk => ?_⟩
      · simp only [get_insert]
        split
        · simp
        · exact h.1 k hk
      · simp only [get_insert] at hk
        split at hk
        · rename_i hk2
          subst hk2
          refine ⟨jsTrim_idem n, ?_⟩
          simp only [Bool.or_eq_true, decide_eq_true_eq, not_or, Nat.not_lt, gt_iff_lt] at hlen
          omega
        · exact h.2 k hk

/-- `setNameData` preserves the invariant. -/
theorem inv_setNameData {s : RegState} (h : Inv s) (c n b e t : String) :
    Inv (setNameData c n b e t s).2 := by
  simp only [setNameData]
  split
  · rename_i owner heq
    split
    · exact h
    · split
      · exact h
      · split
        · exact h
        · split
          · exact h
          · split
            · exact h
            · refine ⟨fun k hk => ?_, fun k hk => ?_⟩
              · simp only [get_insert] at hk
                split at hk
                · rename_i hk2
                  subst hk2
                  simp [heq]
                · exact h.1 k hk
              · exact h.2 k hk
  · exact h

/-- `updateNameData` preserves the invariant. -/
theorem inv_updateNameData {s : RegState} (h : Inv s) (c n b e t : String) :
    Inv (updateNameData c n b e t s).2 := by
  simp only [updateNameData]
  split
  · exact h
  · split
    · exact h
    · split
      · exact h
      · split
        · exact h
        · split
          · rename_i owner heq
            split
            · exact h
            · split
              · exact h
              · split
                · exact h
                · split
                  · exact h
                  · refine ⟨fun k hk => ?_, fun k hk => ?_⟩
                    · simp only [get_insert] at hk
                      split at hk
                      · rename_i hk2
                        subst hk2
                        simp [heq]
                      · exact h.1 k hk
                    · exact h.2 k hk
          · exact h

/-- `clearName` preserves the invariant. -/
theorem inv_clearName {s : RegState} (h : Inv s) (c n : String) :
    Inv (clearName c n s).2 := by
  simp only [clearName]
  split
  · rename_i owner heq
    split
    · exact h
    · refine ⟨fun k hk => ?_, fun k hk => ?_⟩
      · simp only [get_remove] at hk ⊢
        split at hk
        · simp at hk
        · rename_i hk2
          rw [if_neg hk2]
          exact h.1 k hk
      · simp only [get_remove] at hk
        split at hk
        · simp at hk
        · exact h.2 k hk
  · exact h

/-- Every single call preserves the invariant. -/
theorem inv_execOp {s : RegState} (h : Inv s) (op : Op) : Inv (execOp s op) := by
  cases op with
  | register c n => exact inv_registerName h c n
  | set c n b e t => exact inv_setNameData h c n b e t
  | update c n b e t => exact inv_updateNameData h c n b e t
  | clear c n => exact inv_clearName h c n

/-- The invariant is stable under any suffix of calls. -/
theorem inv_foldl {s : RegState} (h : Inv s) (ops : List Op) :
    Inv (ops.foldl execOp s) := by
  induction ops generalizing s with
  | nil => exact h
  | cons op rest ih => exact ih (inv_execOp h op)

/-- Every state reachable from a fresh canister satisfies the invariant. -/
theorem inv_execOps (ops : List Op) : Inv (execOps ops) := inv_foldl inv_init ops

/-- A string of length zero is the empty string. -/
theorem string_length_eq_zero_iff (s : String) : s.length = 0 ↔ s = "" := by
  constructor
  · intro h
    cases s with
    | mk data =>
      cases data with
      | nil => rfl
      | cons a l => simp [String.length] at h
  · intro h
    subst h
    rfl

/-- If the trimmed form of a string is non-empty, the whole falsiness test of
the `updateNameData` preliminary validation is `false`. -/
theorem jsFalsy_or_trim {x : String} (h : jsTrim x ≠ "") :
    (jsFalsy x || jsFalsy (jsTrim x)) = false := by
  have hx : x ≠ "" := by
    intro he
    exact h (by rw [he]; rfl)
  simp [jsFalsy, hx, h]

/-- A string whose trimmed form is non-empty is non-empty. -/
theorem ne_empty_of_trim {x : String} (h : jsTrim x ≠ "") : (x = "") = False := by
  simp only [eq_iff_iff, iff_false]
  intro hx
  exact h (by rw [hx]; rfl)

/-- The `length == 0` test of the source is the emptiness test. -/
theorem length_beq_zero (x : String) : (x.length == 0) = decide (x = "") := by
  by_cases hx : x = ""
  · subst hx
    rfl
  · have hlen : x.length ≠ 0 := fun h0 => hx ((string_length_eq_zero_iff x).1 h0)
    simp [hx, hlen]

/-- C1: the claim states that `registerName` rejects `"al!ce"` with the
invalid-format error and inserts nothing.  The code does the opposite: because
`isNameValid` returns a (truthy) `Result` object, `!isNameValid(name)` is
always `false`, the format check is dead, and `"al!ce"` is registered. -/
theorem registerName_invalid_format_not_rejected :
    (registerName "2vxsx-fae" "al!ce" initState).1 = .Ok "al!ce now maps to 2vxsx-fae" ∧
    (registerName "2vxsx-fae" "al!ce" initState).2.register.get "al!ce" = some "2vxsx-fae" :=
  ⟨by decide, by decide⟩

/-- C2 counterexample: `setNameData` does not reject a field of trimmed length
101 with a field-too-long error; the call succeeds. -/
theorem setNameData_overlong_field_accepted :
    (String.mk (List.replicate 101 'a')).length = 101 ∧
    (setNameData "2vxsx-fae" "alice1" (String.mk (List.replicate 101 'a')) "0xAbC" "alicetw"
        (registerName "2vxsx-fae" "alice1" initState).2).1.isOk = true :=
  ⟨by decide, by decide⟩

/-- C2 (amended): neither `setNameData` nor `updateNameData` enforces the
100-character cap; on a registered name owned by the caller (with no existing
record for the set path, and a non-blank name for the update path) each
validates only that the trimmed fields are non-empty, failing with the
corresponding field error checked in order btc, eth, twitter, and succeeding
exactly when all three are non-empty — whatever their lengths. -/
theorem setNameData_updateNameData_only_emptiness_checked (s : RegState)
    (caller name b e t : String)
    (hreg : s.register.get name = some caller)
    (hrec : s.records.get name = none)
    (hname : jsTrim name ≠ "") :
    ((setNameData caller name b e t s).1 = .Err "Invalid Bitcoin address" ↔ jsTrim b = "") ∧
    ((setNameData caller name b e t s).1 = .Err "Invalid Ethereum address" ↔
      jsTrim b ≠ "" ∧ jsTrim e = "") ∧
    ((setNameData caller name b e t s).1 = .Err "Invalid Twitter username" ↔
      jsTrim b ≠ "" ∧ jsTrim e ≠ "" ∧ jsTrim t = "") ∧
    ((setNameData caller name b e t s).1.isOk = true ↔
      jsTrim b ≠ "" ∧ jsTrim e ≠ "" ∧ jsTrim t ≠ "") ∧
    ((updateNameData caller name b e t s).1 = .Err "Invalid Bitcoin address" ↔ jsTrim b = "") ∧
    ((updateNameData caller name b e t s).1 = .Err "Invalid Ethereum address" ↔
      jsTrim b ≠ "" ∧ jsTrim e = "") ∧
    ((updateNameData caller name b e t s).1 = .Err "Invalid Twitter username" ↔
      jsTrim b ≠ "" ∧ jsTrim e ≠ "" ∧ jsTrim t = "") ∧
    ((updateNameData caller name b e t s).1.isOk = true ↔
      jsTrim b ≠ "" ∧ jsTrim e ≠ "" ∧ jsTrim t ≠ "") := by
  by_cases hb : jsTrim b = "" <;> by_cases he : jsTrim e = "" <;> by_cases ht : jsTrim t = "" <;>
    simp_all [setNameData, updateNameData, Store.containsKey, length_beq_zero,
      jsFalsy, ne_empty_of_trim, Result.isOk]

/-- C2 witness: with the name `"alice1"` registered to the caller, both
`setNameData` and `updateNameData` accept a 101-character btc field. -/
theorem setNameData_updateNameData_only_emptiness_checked_witness :
    (setNameData "2vxsx-fae" "alice1" (String.mk (List.replicate 101 'a')) "0xAbC" "alicetw"
        (registerName "2vxsx-fae" "alice1" initState).2).1.isOk = true ∧
    (updateNameData "2vxsx-fae" "alice1" (String.mk (List.replicate 101 'a')) "0xAbC" "alicetw"
        (registerName "2vxsx-fae" "alice1" initState).2).1.isOk = true := by
  obtain ⟨-, -, -, h4, -, -, -, h8⟩ :=
    setNameData_updateNameData_only_emptiness_checked
      (registerName "2vxsx-fae" "alice1" initState).2 "2vxsx-fae" "alice1"
      (String.mk (List.replicate 101 'a')) "0xAbC" "alicetw"
      (by decide) (by decide) (by decide)
  exact ⟨h4.mpr ⟨by decide, by decide, by decide⟩, h8.mpr ⟨by decide, by decide, by decide⟩⟩

/-- C3 counterexample: on a never-registered name (`"bob"` in the fresh state),
`updateNameData` called with a blank btc field fails with the invalid-field
error, not with the not-registered error. -/
theorem updateNameData_unregistered_blank_field_error :
    initState.register.get "bob" = none ∧
    (updateNameData "2vxsx-fae" "bob" "" "0xAbC" "bobtw" initState).1 =
      .Err "Invalid Bitcoin address" ∧
    (updateNameData "2vxsx-fae" "bob" "" "0xAbC" "bobtw" initState).1 ≠
      .Err ("bob" ++ " has not been claimed yet") :=
  ⟨by decide, by decide, by decide⟩

/-- C3 (amended): for every name with no entry in the Ownership Store,
`setNameData` and `clearName` fail with the not-registered error for all other
argument values; `updateNameData` does so provided its preliminary non-blank
validation passes (name and all three fields non-blank after trimming), and in
every case it leaves the state unchanged. -/
theorem unregistered_name_errors (s : RegState) (caller name b e t : String)
    (hfree : s.register.get name = none) :
    (setNameData caller name b e t s).1 = .Err (name ++ " has not been claimed yet") ∧
    (setNameData caller name b e t s).2 = s ∧
    (clearName caller name s).1 = .Err "Cannot clear name that has not been claimed" ∧
    (clearName caller name s).2 = s ∧
    (updateNameData caller name b e t s).2 = s ∧
    (jsTrim name ≠ "" → jsTrim b ≠ "" → jsTrim e ≠ "" → jsTrim t ≠ "" →
      (updateNameData caller name b e t s).1 = .Err (name ++ " has not been claimed yet")) := by
  refine ⟨?_, ?_, ?_, ?_, ?_, ?_⟩
  · simp only [setNameData, hfree]
  · simp only [setNameData, hfree]
  · simp only [clearName, hfree]
  · simp only [clearName, hfree]
  · simp only [updateNameData, hfree]
    repeat' split
    all_goals rfl
  · intro hn hb he ht
    simp only [updateNameData, jsFalsy_or_trim hn, jsFalsy_or_trim hb,
      jsFalsy_or_trim he, jsFalsy_or_trim ht, Bool.false_eq_true, if_false, hfree]

/-- C3 witness: the amended statement evaluated on the never-registered name
`"bob"` in the fresh state with non-blank fields. -/
theorem unregistered_name_errors_witness :
    initState.register.get "bob" = none ∧
    (setNameData "2vxsx-fae" "bob" "bc1qxy" "0xAbC" "bobtw" initState).1 =
      .Err ("bob" ++ " has not been claimed yet") ∧
    (clearName "2vxsx-fae" "bob" initState).1 =
      .Err "Cannot clear name that has not been claimed" ∧
    (updateNameData "2vxsx-fae" "bob" "bc1qxy" "0xAbC" "bobtw" initState).1 =
      .Err ("bob" ++ " has not been claimed yet") := by
  obtain ⟨h1, -, h3, -, -, h6⟩ :=
    unregistered_name_errors initState "2vxsx-fae" "bob" "bc1qxy" "0xAbC" "bobtw" (by decide)
  exact ⟨by decide, h1, h3, h6 (by decide) (by decide) (by decide) (by decide)⟩

/-- C4: whenever any of the four mutating operations returns an error result,
both stores are exactly as they were before the call. -/
theorem error_paths_leave_state_unchanged (s : RegState) (caller name b e t : String) :
    ((registerName caller name s).1.isErr = true → (registerName caller name s).2 = s) ∧
    ((setNameData caller name b e t s).1.isErr = true → (setNameData caller name b e t s).2 = s) ∧
    ((updateNameData caller name b e t s).1.isErr = true →
      (updateNameData caller name b e t s).2 = s) ∧
    ((clearName caller name s).1.isErr = true → (clearName caller name s).2 = s) := by
  refine ⟨?_, ?_, ?_, ?_⟩ <;>
    · simp only [registerName, setNameData, updateNameData, clearName, jsTruthy,
        Bool.not_true, Bool.false_eq_true, if_false]
      repeat' split
      all_goals intro herr
      all_goals first
        | rfl
        | simp [Result.isErr] at herr

/-- C4 witness: each operation evaluated on a concrete erroring input leaves
the fresh state unchanged. -/
theorem error_paths_leave_state_unchanged_witness :
    (registerName "2vxsx-fae" "a" initState).1.isErr = true ∧
    (registerName "2vxsx-fae" "a" initState).2 = initState ∧
    (setNameData "2vxsx-fae" "a" "x" "y" "z" initState).1.isErr = true ∧
    (setNameData "2vxsx-fae" "a" "x" "y" "z" initState).2 = initState ∧
    (updateNameData "2vxsx-fae" "a" "x" "y" "z" initState).1.isErr = true ∧
    (updateNameData "2vxsx-fae" "a" "x" "y" "z" initState).2 = initState ∧
    (clearName "2vxsx-fae" "a" initState).1.isErr = true ∧
    (clearName "2vxsx-fae" "a" initState).2 = initState := by
  obtain ⟨h1, h2, h3, h4⟩ :=
    error_paths_leave_state_unchanged initState "2vxsx-fae" "a" "x" "y" "z"
  exact ⟨by decide, h1 (by decide), by decide, h2 (by decide),
    by decide, h3 (by decide), by decide, h4 (by decide)⟩

/-- C5: in every state reachable from the fresh canister by any sequence of
mutating calls, the key set of the Data Store (`records`) is a subset of the
key set of the Ownership Store (`register`). -/
theorem records_subset_register (ops : List Op) (k : String) :
    ((execOps ops).records.get k).isSome = true →
      ((execOps ops).register.get k).isSome = true :=
  (inv_execOps ops).1 k

/-- C5 witness: after registering `"alice1"` and setting its data, the key is
present in both stores. -/
theorem records_subset_register_witness :
    ((execOps [.register "2vxsx-fae" "alice1",
        .set "2vxsx-fae" "alice1" "bc1qxy" "0xAbC" "alicetw"]).records.get "alice1").isSome = true ∧
    ((execOps [.register "2vxsx-fae" "alice1",
        .set "2vxsx-fae" "alice1" "bc1qxy" "0xAbC" "alicetw"]).register.get "alice1").isSome = true :=
  ⟨by decide,
   records_subset_register [.register "2vxsx-fae" "alice1",
     .set "2vxsx-fae" "alice1" "bc1qxy" "0xAbC" "alicetw"] "alice1" (by decide)⟩

/-- C6 counterexample: with `"alice1"` owned by identity A, identity B calling
`updateNameData` with a blank btc field fails with the invalid-field error,
not with the not-owner error (the preliminary validation runs first). -/
theorem updateNameData_nonowner_blank_field_error :
    ("aaaaa-aa" : Principal) ≠ "2vxsx-fae" ∧
    (registerName "2vxsx-fae" "alice1" initState).2.register.get "alice1" = some "2vxsx-fae" ∧
    (updateNameData "aaaaa-aa" "alice1" "" "0xAbC" "alicetw"
        (registerName "2vxsx-fae" "alice1" initState).2).1 = .Err "Invalid Bitcoin address" ∧
    (updateNameData "aaaaa-aa" "alice1" "" "0xAbC" "alicetw"
        (registerName "2vxsx-fae" "alice1" initState).2).1 ≠
      .Err "Only name owner can update name data" :=
  ⟨by decide, by decide, by decide, by decide⟩

/-- C6 (amended): if A owns a name, a different identity B always fails to
mutate it and both stores are left unchanged; `setNameData` and `clearName`
fail with the not-owner error, and `updateNameData` fails with the not-owner
error provided its preliminary non-blank validation passes (otherwise with the
corresponding invalid-input error). -/
theorem nonowner_mutations_rejected (s : RegState) (name A B b e t : String)
    (hreg : s.register.get name = some A) (hne : B ≠ A) :
    (setNameData B name b e t s).1 = .Err "Only name owner can set name data" ∧
    (setNameData B name b e t s).2 = s ∧
    (clearName B name s).1 = .Err "Only name owner can clear name. Aborting..." ∧
    (clearName B name s).2 = s ∧
    (updateNameData B name b e t s).1.isErr = true ∧
    (updateNameData B name b e t s).2 = s ∧
    (jsTrim name ≠ "" → jsTrim b ≠ "" → jsTrim e ≠ "" → jsTrim t ≠ "" →
      (updateNameData B name b e t s).1 = .Err "Only name owner can update name data") := by
  refine ⟨?_, ?_, ?_, ?_, ?_, ?_, ?_⟩
  · simp [setNameData, hreg, hne]
  · simp [setNameData, hreg, hne]
  · simp [clearName, hreg, hne]
  · simp [clearName, hreg, hne]
  · simp only [updateNameData, hreg]
    repeat' split
    all_goals rfl
  · simp only [updateNameData, hreg]
    repeat' split
    all_goals rfl
  · intro hn hb he ht
    simp [updateNameData, jsFalsy_or_trim hn, jsFalsy_or_trim hb, jsFalsy_or_trim he,
      jsFalsy_or_trim ht, hreg, hne]

/-- C6 witness: the amended statement evaluated with A = `"2vxsx-fae"`,
B = `"aaaaa-aa"` and non-blank fields. -/
theorem nonowner_mutations_rejected_witness :
    (registerName "2vxsx-fae" "alice1" initState).2.register.get "alice1" = some "2vxsx-fae" ∧
    ("aaaaa-aa" : Principal) ≠ "2vxsx-fae" ∧
    (setNameData "aaaaa-aa" "alice1" "bc1qxy" "0xAbC" "alicetw"
        (registerName "2vxsx-fae" "alice1" initState).2).1 =
      .Err "Only name owner can set name data" ∧
    (clearName "aaaaa-aa" "alice1" (registerName "2vxsx-fae" "alice1" initState).2).1 =
      .Err "Only name owner can clear name. Aborting..." ∧
    (updateNameData "aaaaa-aa" "alice1" "bc1qxy" "0xAbC" "alicetw"
        (registerName "2vxsx-fae" "alice1" initState).2).1 =
      .Err "Only name owner can update name data" := by
  obtain ⟨h1, -, h3, -, -, -, h7⟩ :=
    nonowner_mutations_rejected (registerName "2vxsx-fae" "alice1" initState).2
      "alice1" "2vxsx-fae" "aaaaa-aa" "bc1qxy" "0xAbC" "alicetw" (by decide) (by decide)
  exact ⟨by decide, by decide, h1, h3,
    h7 (by decide) (by decide) (by decide) (by decide)⟩

/-- C7: with a registered name owned by the caller and no existing record, a
first `setNameData` with valid (non-blank) fields succeeds and stores the
record, and a second `setNameData` fails with the data-already-exists error,
leaving the first record in place. -/
theorem setNameData_twice_second_fails (s : RegState) (caller name b e t b2 e2 t2 : String)
    (hreg : s.register.get name = some caller)
    (hrec : s.records.get name = none)
    (hb : jsTrim b ≠ "") (he : jsTrim e ≠ "") (ht : jsTrim t ≠ "") :
    (setNameData caller name b e t s).1 =
      .Ok (name ++ " now maps to " ++ jsonOfName ⟨jsTrim b, jsTrim e, jsTrim t⟩) ∧
    (setNameData caller name b e t s).2.records.get name = some ⟨jsTrim b, jsTrim e, jsTrim t⟩ ∧
    (setNameData caller name b2 e2 t2 (setNameData caller name b e t s).2).1 =
      .Err (name ++ " already has data associated with it") ∧
    (setNameData caller name b2 e2 t2 (setNameData caller name b e t s).2).2 =
      (setNameData caller name b e t s).2 := by
  have h1 : setNameData caller name b e t s =
      (.Ok (name ++ " now maps to " ++ jsonOfName ⟨jsTrim b, jsTrim e, jsTrim t⟩),
        { s with records := s.records.insert name ⟨jsTrim b, jsTrim e, jsTrim t⟩ }) := by
    simp [setNameData, hreg, hrec, Store.containsKey, length_beq_zero, hb, he, ht]
  refine ⟨by rw [h1], ?_, ?_, ?_⟩
  · rw [h1]
    simp [get_insert]
  · rw [h1]
    simp [setNameData, hreg, Store.containsKey, get_insert]
  · rw [h1]
    simp [setNameData, hreg, Store.containsKey, get_insert]

/-- C7 witness: the double `setNameData` on `"alice1"` by its owner. -/
theorem setNameData_twice_second_fails_witness :
    (setNameData "2vxsx-fae" "alice1" "bc1qxy" "0xAbC" "alicetw"
        (registerName "2vxsx-fae" "alice1" initState).2).1 =
      .Ok ("alice1" ++ " now maps to " ++
        jsonOfName ⟨jsTrim "bc1qxy", jsTrim "0xAbC", jsTrim "alicetw"⟩) ∧
    (setNameData "2vxsx-fae" "alice1" "bc1qxz" "0xAbD" "alicetx"
        (setNameData "2vxsx-fae" "alice1" "bc1qxy" "0xAbC" "alicetw"
          (registerName "2vxsx-fae" "alice1" initState).2).2).1 =
      .Err ("alice1" ++ " already has data associated with it") := by
  obtain ⟨h1, -, h3, -⟩ :=
    setNameData_twice_second_fails (registerName "2vxsx-fae" "alice1" initState).2
      "2vxsx-fae" "alice1" "bc1qxy" "0xAbC" "alicetw" "bc1qxz" "0xAbD" "alicetx"
      (by decide) (by decide) (by decide) (by decide) (by decide)
  exact ⟨h1, h3⟩

/-- C8: in any reachable state, after the owner successfully clears a
registered name, `viewRegisteredName` and `viewNameData` on it both fail with
their not-registered errors, and `registerName` on it succeeds for any
caller. -/
theorem clearName_frees_name (ops : List Op) (name owner : String)
    (hreg : (execOps ops).register.get name = some owner) :
    (clearName owner name (execOps ops)).1.isOk = true ∧
    viewRegisteredName name (clearName owner name (execOps ops)).2 =
      .Err ("The name " ++ name ++ " has not been registered yet") ∧
    viewNameData name (clearName owner name (execOps ops)).2 =
      .Err (name ++ " has not been claimed yet") ∧
    ∀ caller : Principal,
      (registerName caller name (clearName owner name (execOps ops)).2).1 =
        .Ok (name ++ " now maps to " ++ caller) := by
  obtain ⟨htrim, hl2, hl16⟩ := (inv_execOps ops).2 name (by rw [hreg]; rfl)
  have hA : ¬name.length < 2 := by omega
  have hB : ¬name.length > 16 := by omega
  have hclear : clearName owner name (execOps ops) =
      (.Ok ("\x27" ++ name ++ "\x27 with data: " ++ jsonOfOpt ((execOps ops).records.get name) ++
          " has been cleared from storage"),
        ⟨((execOps ops).register.remove name).2, ((execOps ops).records.remove name).2⟩) := by
    simp [clearName, hreg, Store.remove]
  refine ⟨by rw [hclear]; rfl, ?_, ?_, fun caller => ?_⟩
  · rw [hclear]
    simp [viewRegisteredName, get_remove]
  · rw [hclear]
    simp [viewNameData, isNameAvailable, get_remove]
  · rw [hclear]
    simp [registerName, jsTruthy, htrim, hA, hB, get_remove]

/-- C8 witness: register `"alice1"`, clear it, then observe both views fail
and a different caller can register it again. -/
theorem clearName_frees_name_witness :
    (clearName "2vxsx-fae" "alice1" (execOps [.register "2vxsx-fae" "alice1"])).1.isOk = true ∧
    viewRegisteredName "alice1"
        (clearName "2vxsx-fae" "alice1" (execOps [.register "2vxsx-fae" "alice1"])).2 =
      .Err ("The name " ++ "alice1" ++ " has not been registered yet") ∧
    viewNameData "alice1"
        (clearName "2vxsx-fae" "alice1" (execOps [.register "2vxsx-fae" "alice1"])).2 =
      .Err ("alice1" ++ " has not been claimed yet") ∧
    (registerName "aaaaa-aa" "alice1"
        (clearName "2vxsx-fae" "alice1" (execOps [.register "2vxsx-fae" "alice1"])).2).1 =
      .Ok ("alice1" ++ " now maps to " ++ "aaaaa-aa") := by
  obtain ⟨h1, h2, h3, h4⟩ :=
    clearName_frees_name [.register "2vxsx-fae" "alice1"] "alice1" "2vxsx-fae" (by decide)
  exact ⟨h1, h2, h3, h4 "aaaaa-aa"⟩

/-- C9: for every trimmed, alphanumeric name of length 2 to 16 that is not yet
registered, `registerName` by X succeeds and an immediate `viewRegisteredName`
returns Ok with the display string of X. -/
theorem registerName_then_view_roundtrip (s : RegState) (X name : String)
    (htrim : jsTrim name = name)
    (halnum : name.data.all isAlnum = true)
    (hlen2 : 2 ≤ name.length) (hlen16 : name.length ≤ 16)
    (hfree : s.register.get name = none) :
    (registerName X name s).1 = .Ok (name ++ " now maps to " ++ X) ∧
    viewRegisteredName name (registerName X name s).2 = .Ok X := by
  have hA : ¬name.length < 2 := by omega
  have hB : ¬name.length > 16 := by omega
  constructor
  · simp [registerName, jsTruthy, htrim, hfree, hA, hB]
  · simp [registerName, viewRegisteredName, jsTruthy, htrim, hfree, hA, hB, get_insert]

/-- C9 witness: the round trip on `"alice1"` from the fresh state. -/
theorem registerName_then_view_roundtrip_witness :
    (registerName "2vxsx-fae" "alice1" initState).1 =
      .Ok ("alice1" ++ " now maps to " ++ "2vxsx-fae") ∧
    viewRegisteredName "alice1" (registerName "2vxsx-fae" "alice1" initState).2 =
      .Ok "2vxsx-fae" :=
  registerName_then_view_roundtrip initState "2vxsx-fae" "alice1"
    (by decide) (by decide) (by decide) (by decide) (by decide)

/-- C10 counterexample: with `"alice1"` registered, calling `updateNameData`
with the padded name `" alice1 "` and a blank btc field fails with the
invalid-field error, not with the not-registered error. -/
theorem updateNameData_padded_name_blank_field_error :
    jsTrim " alice1 " ≠ " alice1 " ∧
    (registerName "2vxsx-fae" "alice1" initState).2.register.get (jsTrim " alice1 ") =
      some "2vxsx-fae" ∧
    (updateNameData "2vxsx-fae" " alice1 " "" "0xAbC" "alicetw"
        (registerName "2vxsx-fae" "alice1" initState).2).1 = .Err "Invalid Bitcoin address" ∧
    (updateNameData "2vxsx-fae" " alice1 " "" "0xAbC" "alicetw"
        (registerName "2vxsx-fae" "alice1" initState).2).1 ≠
      .Err (" alice1 " ++ " has not been claimed yet") :=
  ⟨by decide, by decide, by decide, by decide⟩

/-- C10 (amended): only `registerName` trims its name argument before using it
as the store key.  In any reachable state, if a name is not fixed by trimming
(it carries surrounding whitespace) — even when its trimmed form is registered
— `setNameData`, `clearName`, `viewNameData` and `viewRegisteredName` on the
raw name fail with their not-registered errors, and `updateNameData` does so
provided its preliminary non-blank field validation passes (otherwise it fails
with the corresponding invalid-input error). -/
theorem untrimmed_lookup_misses (ops : List Op) (name q : String)
    (hpad : jsTrim name ≠ name)
    (hregd : (execOps ops).register.get (jsTrim name) = some q) :
    ∀ caller b e t : String,
      (setNameData caller name b e t (execOps ops)).1 =
        .Err (name ++ " has not been claimed yet") ∧
      (clearName caller name (execOps ops)).1 =
        .Err "Cannot clear name that has not been claimed" ∧
      viewNameData name (execOps ops) = .Err (name ++ " has not been claimed yet") ∧
      viewRegisteredName name (execOps ops) =
        .Err ("The name " ++ name ++ " has not been registered yet") ∧
      (jsTrim b ≠ "" → jsTrim e ≠ "" → jsTrim t ≠ "" →
        (updateNameData caller name b e t (execOps ops)).1 =
          .Err (name ++ " has not been claimed yet")) := by
  have hnone : (execOps ops).register.get name = none := by
    cases hx : (execOps ops).register.get name with
    | none => rfl
    | some v => exact absurd ((inv_execOps ops).2 name (by rw [hx]; rfl)).1 hpad
  have hn : jsTrim name ≠ "" := by
    obtain ⟨-, hl2, -⟩ := (inv_execOps ops).2 (jsTrim name) (by rw [hregd]; rfl)
    intro h0
    rw [h0] at hl2
    simp [String.length] at hl2
  intro caller b e t
  refine ⟨?_, ?_, ?_, ?_, ?_⟩
  · simp only [setNameData, hnone]
  · simp only [clearName, hnone]
  · simp [viewNameData, isNameAvailable, hnone]
  · simp [viewRegisteredName, hnone]
  · intro hb he ht
    simp only [updateNameData, jsFalsy_or_trim hn, jsFalsy_or_trim hb,
      jsFalsy_or_trim he, jsFalsy_or_trim ht, Bool.false_eq_true, if_false, hnone]

/-- C10 witness: the amended statement evaluated with `"alice1"` registered
and the padded name `" alice1 "` with non-blank fields. -/
theorem untrimmed_lookup_misses_witness :
    jsTrim " alice1 " ≠ " alice1 " ∧
    (execOps [.register "2vxsx-fae" "alice1"]).register.get (jsTrim " alice1 ") =
      some "2vxsx-fae" ∧
    (setNameData "2vxsx-fae" " alice1 " "bc1qxy" "0xAbC" "alicetw"
        (execOps [.register "2vxsx-fae" "alice1"])).1 =
      .Err (" alice1 " ++ " has not been claimed yet") ∧
    (updateNameData "2vxsx-fae" " alice1 " "bc1qxy" "0xAbC" "alicetw"
        (execOps [.register "2vxsx-fae" "alice1"])).1 =
      .Err (" alice1 " ++ " has not been claimed yet") := by
  obtain ⟨h1, -, -, -, h5⟩ :=
    untrimmed_lookup_misses [.register "2vxsx-fae" "alice1"] " alice1 " "2vxsx-fae"
      (by decide) (by decide) "2vxsx-fae" "bc1qxy" "0xAbC" "alicetw"
  exact ⟨by decide, by decide, h1, h5 (by decide) (by decide) (by decide)⟩

end AzleNS
